import Mathlib

/-!
Verification of the box-nesting system (orthogonal-polygon tiling optimizer).

Shallow embedding of the backend geometry layer
(backend/geometry/transformations.py, backend/geometry/polygons.py),
the nesting engine (backend/nesting/engine.py), the service layer
(backend/service/layout_service.py) and the production layout optimizer
(frontend/ui/tile_tab.py).

Coordinates are embedded as exact rationals: the Python source computes in
floats, and every claim under scrutiny is about the exact arithmetic the
float code approximates.  Python lists become Lean lists, dict-shaped
pattern payloads become structures, raised exceptions become the error arm
of Except, and in-place mutation is made explicit by returning the
post-state of the mutated object.
-/

namespace BoxNesting

/-- A point in centimeters, as in geometry/types.py (Point = Tuple[float, float]). -/
abbrev Point : Type := ℚ × ℚ

/-- A rectangle (x, y, w, h) in centimeters, as in geometry/types.py (RectCM). -/
abbrev RectCM : Type := ℚ × ℚ × ℚ × ℚ

/-- transformations.rotate_point_90cw: (x, y) ↦ (y, -x). -/
def rotate_point_90cw (pt : Point) : Point :=
  (pt.2, -pt.1)

/-- transformations.rotate_point_180: (x, y) ↦ (-x, -y). -/
def rotate_point_180 (pt : Point) : Point :=
  (-pt.1, -pt.2)

/-- transformations.rotate_point_270cw: (x, y) ↦ (-y, x). -/
def rotate_point_270cw (pt : Point) : Point :=
  (-pt.2, pt.1)

/-- Fold of min over a list seeded with an initial value; Python's min over
a nonempty list [x, l...] is foldMin x l. -/
def foldMin (x : ℚ) (l : List ℚ) : ℚ :=
  l.foldl min x

/-- Fold of max over a list seeded with an initial value. -/
def foldMax (x : ℚ) (l : List ℚ) : ℚ :=
  l.foldl max x

/-- polygons.OrthoPoly: one outer loop plus zero or more hole loops, in cm. -/
structure OrthoPoly where
  outer : List Point
  holes : List (List Point)
deriving DecidableEq

/-- (min xs, min ys, max xs, max ys) of a loop of points; Python raises on an
empty loop (min of an empty sequence), so the empty case returns a junk box
and every theorem using it assumes a nonempty loop. -/
def aabb_list (l : List Point) : ℚ × ℚ × ℚ × ℚ :=
  match l with
  | [] => (0, 0, 0, 0)
  | q :: qs =>
      (foldMin q.1 (qs.map Prod.fst), foldMin q.2 (qs.map Prod.snd),
       foldMax q.1 (qs.map Prod.fst), foldMax q.2 (qs.map Prod.snd))

/-- polygons.OrthoPoly.aabb: bounding box over the outer loop only. -/
def OrthoPoly.aabb (p : OrthoPoly) : ℚ × ℚ × ℚ × ℚ :=
  aabb_list p.outer

/-- Width of the axis-aligned bounding box, bbox[2] - bbox[0] as computed at
every call site of aabb. -/
def OrthoPoly.bboxWidth (p : OrthoPoly) : ℚ :=
  p.aabb.2.2.1 - p.aabb.1

/-- Height of the axis-aligned bounding box, bbox[3] - bbox[1]. -/
def OrthoPoly.bboxHeight (p : OrthoPoly) : ℚ :=
  p.aabb.2.2.2 - p.aabb.2.1

/-- polygons.OrthoPoly.translate mutates self in place
(self.outer = [(x+dx, y+dy) ...]) and returns None; its embedding returns
the post-state of the mutated polygon. -/
def OrthoPoly.translate (p : OrthoPoly) (dx dy : ℚ) : OrthoPoly :=
  { outer := p.outer.map fun q => (q.1 + dx, q.2 + dy),
    holes := p.holes.map fun h => h.map fun q => (q.1 + dx, q.2 + dy) }

/-- polygons.OrthoPoly.rotated_copy: normalizes rot % 360 and builds a fresh
polygon from mapped copies of the loops, raising ValueError on any rotation
that is not a multiple of 90.  self is not written to.  Python's % on a
positive modulus agrees with Int.emod. -/
def OrthoPoly.rotated_copy (p : OrthoPoly) (rot : ℤ) : Except String OrthoPoly :=
  let m := rot % 360
  if m = 0 then
    Except.ok ⟨p.outer, p.holes⟩
  else if m = 90 then
    Except.ok ⟨p.outer.map rotate_point_90cw, p.holes.map fun h => h.map rotate_point_90cw⟩
  else if m = 180 then
    Except.ok ⟨p.outer.map rotate_point_180, p.holes.map fun h => h.map rotate_point_180⟩
  else if m = 270 then
    Except.ok ⟨p.outer.map rotate_point_270cw, p.holes.map fun h => h.map rotate_point_270cw⟩
  else
    Except.error "Rotation must be multiple of 90 degrees"

/-- transformations.rotate_rect_generic: rotate the four corners of an
axis-aligned rectangle by rot % 360 and return the resulting AABB as
(minx, miny, w, h); ValueError when the rotation is not a multiple of 90. -/
def rotate_rect_generic (r : RectCM) (rot : ℤ) : Except String RectCM :=
  let corners : List Point :=
    [(r.1, r.2.1), (r.1 + r.2.2.1, r.2.1),
     (r.1 + r.2.2.1, r.2.1 + r.2.2.2), (r.1, r.2.1 + r.2.2.2)]
  let m := rot % 360
  let rc : Except String (List Point) :=
    if m = 0 then Except.ok corners
    else if m = 90 then Except.ok (corners.map rotate_point_90cw)
    else if m = 180 then Except.ok (corners.map rotate_point_180)
    else if m = 270 then Except.ok (corners.map rotate_point_270cw)
    else Except.error "Rotation must be multiple of 90."
  match rc with
  | Except.error e => Except.error e
  | Except.ok pts =>
      match pts with
      | [] => Except.ok (0, 0, 0, 0)
      | q :: qs =>
          let minx := foldMin q.1 (qs.map Prod.fst)
          let miny := foldMin q.2 (qs.map Prod.snd)
          let maxx := foldMax q.1 (qs.map Prod.fst)
          let maxy := foldMax q.2 (qs.map Prod.snd)
          Except.ok (minx, miny, maxx - minx, maxy - miny)

/-- The cyclic shoelace accumulator of transformations.calculate_polygon_area:
sum over i of x_i * y_{i+1} - x_{i+1} * y_i with indices mod n.  Pairing each
vertex with its cyclic successor is List.zip with the list rotated by one. -/
def shoelaceSum (l : List Point) : ℚ :=
  ((l.zip (l.rotate 1)).map fun pq => pq.1.1 * pq.2.2 - pq.2.1 * pq.1.2).sum

/-- Inner polygon_area helper: absolute shoelace sum halved. -/
def polygon_area (l : List Point) : ℚ :=
  |shoelaceSum l| / 2

/-- transformations.calculate_polygon_area: outer-loop area minus the areas
of the holes. -/
def calculate_polygon_area (p : OrthoPoly) : ℚ :=
  polygon_area p.outer - (p.holes.map polygon_area).sum

/-! ### Helper lemmas about foldMin / foldMax -/

theorem foldMin_cons (x a : ℚ) (l : List ℚ) : foldMin x (a :: l) = foldMin (min x a) l := rfl

theorem foldMax_cons (x a : ℚ) (l : List ℚ) : foldMax x (a :: l) = foldMax (max x a) l := rfl

theorem foldMin_le_init (x : ℚ) (l : List ℚ) : foldMin x l ≤ x := by
  induction l generalizing x with
  | nil => exact le_refl x
  | cons a l ih =>
      calc foldMin x (a :: l) = foldMin (min x a) l := rfl
        _ ≤ min x a := ih (min x a)
        _ ≤ x := min_le_left x a

theorem le_foldMax_init (x : ℚ) (l : List ℚ) : x ≤ foldMax x l := by
  induction l generalizing x with
  | nil => exact le_refl x
  | cons a l ih =>
      calc x ≤ max x a := le_max_left x a
        _ ≤ foldMax (max x a) l := ih (max x a)
        _ = foldMax x (a :: l) := rfl

theorem foldMin_le_mem {a : ℚ} {l : List ℚ} (x : ℚ) (h : a ∈ l) : foldMin x l ≤ a := by
  induction l generalizing x with
  | nil => cases h
  | cons b l ih =>
      rw [foldMin_cons]
      rcases List.mem_cons.mp h with rfl | hb
      · exact le_trans (foldMin_le_init (min x a) l) (min_le_right x a)
      · exact ih (min x b) hb

theorem mem_le_foldMax {a : ℚ} {l : List ℚ} (x : ℚ) (h : a ∈ l) : a ≤ foldMax x l := by
  induction l generalizing x with
  | nil => cases h
  | cons b l ih =>
      rw [foldMax_cons]
      rcases List.mem_cons.mp h with rfl | hb
      · exact le_trans (le_max_right x a) (le_foldMax_init (max x a) l)
      · exact ih (max x b) hb

theorem foldMin_choice (x : ℚ) (l : List ℚ) : foldMin x l = x ∨ foldMin x l ∈ l := by
  induction l generalizing x with
  | nil => exact Or.inl rfl
  | cons a l ih =>
      rw [foldMin_cons]
      rcases ih (min x a) with h | h
      · rcases min_cases x a with ⟨hm, _⟩ | ⟨hm, _⟩
        · exact Or.inl (by rw [h, hm])
        · exact Or.inr (by rw [h, hm]; exact List.mem_cons_self a l)
      · exact Or.inr (List.mem_cons_of_mem a h)

theorem foldMax_choice (x : ℚ) (l : List ℚ) : foldMax x l = x ∨ foldMax x l ∈ l := by
  induction l generalizing x with
  | nil => exact Or.inl rfl
  | cons a l ih =>
      rw [foldMax_cons]
      rcases ih (max x a) with h | h
      · rcases max_cases x a with ⟨hm, _⟩ | ⟨hm, _⟩
        · exact Or.inl (by rw [h, hm])
        · exact Or.inr (by rw [h, hm]; exact List.mem_cons_self a l)
      · exact Or.inr (List.mem_cons_of_mem a h)

theorem foldMin_map_neg (x : ℚ) (l : List ℚ) :
    foldMin (-x) (l.map fun a => -a) = -(foldMax x l) := by
  induction l generalizing x with
  | nil => rfl
  | cons a l ih =>
      show foldMin (min (-x) (-a)) (l.map fun a => -a) = -(foldMax (max x a) l)
      rw [min_neg_neg, ih (max x a)]

theorem foldMax_map_neg (x : ℚ) (l : List ℚ) :
    foldMax (-x) (l.map fun a => -a) = -(foldMin x l) := by
  induction l generalizing x with
  | nil => rfl
  | cons a l ih =>
      show foldMax (max (-x) (-a)) (l.map fun a => -a) = -(foldMin (min x a) l)
      rw [max_neg_neg, ih (min x a)]

/-! ### Bounding box of a rotated loop -/

theorem aabb_list_map_rot90 (q : Point) (qs : List Point) :
    aabb_list ((q :: qs).map rotate_point_90cw) =
      ((aabb_list (q :: qs)).2.1, -(aabb_list (q :: qs)).2.2.1,
       (aabb_list (q :: qs)).2.2.2, -(aabb_list (q :: qs)).1) := by
  have hfst : (qs.map rotate_point_90cw).map Prod.fst = qs.map Prod.snd := by
    rw [List.map_map]; rfl
  have hsnd : (qs.map rotate_point_90cw).map Prod.snd = (qs.map Prod.fst).map fun a => -a := by
    rw [List.map_map, List.map_map]; rfl
  show aabb_list ((q.2, -q.1) :: qs.map rotate_point_90cw) = _
  simp only [aabb_list, hfst, hsnd, foldMin_map_neg, foldMax_map_neg]

theorem aabb_list_map_rot270 (q : Point) (qs : List Point) :
    aabb_list ((q :: qs).map rotate_point_270cw) =
      (-(aabb_list (q :: qs)).2.2.2, (aabb_list (q :: qs)).1,
       -(aabb_list (q :: qs)).2.1, (aabb_list (q :: qs)).2.2.1) := by
  have hfst : (qs.map rotate_point_270cw).map Prod.fst = (qs.map Prod.snd).map fun a => -a := by
    rw [List.map_map, List.map_map]; rfl
  have hsnd : (qs.map rotate_point_270cw).map Prod.snd = qs.map Prod.fst := by
    rw [List.map_map]; rfl
  show aabb_list ((-q.2, q.1) :: qs.map rotate_point_270cw) = _
  simp only [aabb_list, hfst, hsnd, foldMin_map_neg, foldMax_map_neg]

/-! ### Shoelace sum is invariant under the 90-degree rotations -/

theorem shoelaceSum_map (f : Point → Point)
    (hf : ∀ a b : Point, (f a).1 * (f b).2 - (f b).1 * (f a).2 = a.1 * b.2 - b.1 * a.2)
    (l : List Point) : shoelaceSum (l.map f) = shoelaceSum l := by
  unfold shoelaceSum
  rw [← List.map_rotate, List.zip_map, List.map_map]
  congr 1
  apply List.map_congr_left
  intro pq _
  exact hf pq.1 pq.2

theorem polygon_area_map_rot90 (l : List Point) :
    polygon_area (l.map rotate_point_90cw) = polygon_area l := by
  unfold polygon_area
  rw [shoelaceSum_map rotate_point_90cw (fun a b => by simp [rotate_point_90cw]; ring) l]

theorem polygon_area_map_rot270 (l : List Point) :
    polygon_area (l.map rotate_point_270cw) = polygon_area l := by
  unfold polygon_area
  rw [shoelaceSum_map rotate_point_270cw (fun a b => by simp [rotate_point_270cw]; ring) l]

/-! ### Normalization and rejection behaviour of rotated_copy -/

theorem rotated_copy_eq_90 (p : OrthoPoly) :
    p.rotated_copy 90 =
      Except.ok ⟨p.outer.map rotate_point_90cw, p.holes.map fun h => h.map rotate_point_90cw⟩ := by
  unfold OrthoPoly.rotated_copy
  norm_num

theorem rotated_copy_eq_270 (p : OrthoPoly) :
    p.rotated_copy 270 =
      Except.ok ⟨p.outer.map rotate_point_270cw, p.holes.map fun h => h.map rotate_point_270cw⟩ := by
  unfold OrthoPoly.rotated_copy
  norm_num

theorem rotated_copy_error_of_not_dvd (p : OrthoPoly) {r : ℤ} (hr : ¬ (90 ∣ r)) :
    p.rotated_copy r = Except.error "Rotation must be multiple of 90 degrees" := by
  have hmod : r % 360 % 90 = r % 90 := Int.emod_emod_of_dvd r (by norm_num)
  have h90 : ¬ (90 ∣ r % 360) := by
    intro h
    apply hr
    have h1 : r % 360 % 90 = 0 := Int.emod_eq_zero_of_dvd h
    exact Int.dvd_of_emod_eq_zero (hmod ▸ h1)
  have h0 : r % 360 ≠ 0 := fun h => h90 (by rw [h]; exact dvd_zero 90)
  have h1 : r % 360 ≠ 90 := fun h => h90 (by rw [h])
  have h2 : r % 360 ≠ 180 := fun h => h90 (by rw [h]; norm_num)
  have h3 : r % 360 ≠ 270 := fun h => h90 (by rw [h]; norm_num)
  unfold OrthoPoly.rotated_copy
  simp only [if_neg h0, if_neg h1, if_neg h2, if_neg h3]

theorem rotated_copy_ok_iff (p : OrthoPoly) (r : ℤ) :
    (∃ q, p.rotated_copy r = Except.ok q) ↔
      (r % 360 = 0 ∨ r % 360 = 90 ∨ r % 360 = 180 ∨ r % 360 = 270) := by
  unfold OrthoPoly.rotated_copy
  by_cases h0 : r % 360 = 0
  · simp [h0]
  by_cases h1 : r % 360 = 90
  · simp [h0, h1]
  by_cases h2 : r % 360 = 180
  · simp [h0, h1, h2]
  by_cases h3 : r % 360 = 270
  · simp [h0, h1, h2, h3]
  simp [h0, h1, h2, h3]

theorem rotate_rect_generic_ok_iff (rc : RectCM) (r : ℤ) :
    (∃ q, rotate_rect_generic rc r = Except.ok q) ↔
      (r % 360 = 0 ∨ r % 360 = 90 ∨ r % 360 = 180 ∨ r % 360 = 270) := by
  unfold rotate_rect_generic
  by_cases h0 : r % 360 = 0
  · simp [h0, rotate_point_90cw, rotate_point_180, rotate_point_270cw]
  by_cases h1 : r % 360 = 90
  · simp [h0, h1, rotate_point_90cw, rotate_point_180, rotate_point_270cw]
  by_cases h2 : r % 360 = 180
  · simp [h0, h1, h2, rotate_point_90cw, rotate_point_180, rotate_point_270cw]
  by_cases h3 : r % 360 = 270
  · simp [h0, h1, h2, h3, rotate_point_90cw, rotate_point_180, rotate_point_270cw]
  simp [h0, h1, h2, h3]

/-! ### Claims C3, C6, C7, C9 -/

/-- C3: rotating any orthogonal polygon (outer loop plus holes) by 90 or 270
degrees through rotated_copy preserves the computed area exactly, hence to
within 1e-9, and swaps the width and the height of the axis-aligned bounding
box. -/
theorem claim_C3_rotation_preserves_area_swaps_bbox
    (p q : OrthoPoly) (r : ℤ) (hr : r = 90 ∨ r = 270) (hout : p.outer ≠ [])
    (hq : p.rotated_copy r = Except.ok q) :
    calculate_polygon_area q = calculate_polygon_area p ∧
    |calculate_polygon_area q - calculate_polygon_area p| ≤ 1 / 1000000000 ∧
    q.bboxWidth = p.bboxHeight ∧ q.bboxHeight = p.bboxWidth := by
  have harea : ∀ f : Point → Point, (∀ l, polygon_area (l.map f) = polygon_area l) →
      calculate_polygon_area ⟨p.outer.map f, p.holes.map fun h => h.map f⟩ =
        calculate_polygon_area p := by
    intro f hf
    unfold calculate_polygon_area
    simp only [List.map_map]
    rw [hf]
    have hc : (polygon_area ∘ fun h : List Point => h.map f) = polygon_area :=
      funext fun h => hf h
    rw [hc]
  rcases hr with rfl | rfl
  · rw [rotated_copy_eq_90 p] at hq
    injection hq with hq
    subst hq
    refine ⟨harea rotate_point_90cw polygon_area_map_rot90, ?_, ?_, ?_⟩
    · rw [harea rotate_point_90cw polygon_area_map_rot90]
      simp
    all_goals
      cases hp : p.outer with
      | nil => exact absurd hp hout
      | cons a as =>
          simp only [OrthoPoly.bboxWidth, OrthoPoly.bboxHeight, OrthoPoly.aabb, hp,
            aabb_list_map_rot90]
          try ring
  · rw [rotated_copy_eq_270 p] at hq
    injection hq with hq
    subst hq
    refine ⟨harea rotate_point_270cw polygon_area_map_rot270, ?_, ?_, ?_⟩
    · rw [harea rotate_point_270cw polygon_area_map_rot270]
      simp
    all_goals
      cases hp : p.outer with
      | nil => exact absurd hp hout
      | cons a as =>
          simp only [OrthoPoly.bboxWidth, OrthoPoly.bboxHeight, OrthoPoly.aabb, hp,
            aabb_list_map_rot270]
          try ring

/-- C3 witness: the theorem applied to the 10 x 5 rectangle rotated by 90
degrees. -/
theorem claim_C3_witness :
    calculate_polygon_area
        ⟨([(0, 0), (10, 0), (10, 5), (0, 5)] : List Point).map rotate_point_90cw, []⟩ =
      calculate_polygon_area ⟨[(0, 0), (10, 0), (10, 5), (0, 5)], []⟩ :=
  (claim_C3_rotation_preserves_area_swaps_bbox
    ⟨[(0, 0), (10, 0), (10, 5), (0, 5)], []⟩ _ 90 (Or.inl rfl) (by decide)
    (rotated_copy_eq_90 _)).1

/-- C6: the point rotations are the closed forms (x,y) to (y,-x) for 90
degrees clockwise, (-x,-y) for 180, (-y,x) for 270 clockwise, and
rotated_copy rejects every angle that is not a multiple of 90 with a
ValueError instead of producing a polygon. -/
theorem claim_C6_rotation_formulas_and_rejection :
    (∀ pt : Point, rotate_point_90cw pt = (pt.2, -pt.1)) ∧
    (∀ pt : Point, rotate_point_180 pt = (-pt.1, -pt.2)) ∧
    (∀ pt : Point, rotate_point_270cw pt = (-pt.2, pt.1)) ∧
    (∀ (p : OrthoPoly) (r : ℤ), ¬ (90 ∣ r) →
      p.rotated_copy r = Except.error "Rotation must be multiple of 90 degrees") :=
  ⟨fun _ => rfl, fun _ => rfl, fun _ => rfl,
   fun p _ hr => rotated_copy_error_of_not_dvd p hr⟩

/-- C6 witness: rotation by 45 degrees is rejected. -/
theorem claim_C6_witness :
    OrthoPoly.rotated_copy ⟨[(0, 0), (1, 0), (1, 1), (0, 1)], []⟩ 45 =
      Except.error "Rotation must be multiple of 90 degrees" :=
  claim_C6_rotation_formulas_and_rejection.2.2.2 _ 45 (by decide)

/-- C9: rotated_copy normalizes the angle modulo 360 and succeeds exactly on
the residues 0, 90, 180, 270 (equivalently on every integer multiple of 90,
negative ones and ones at or above 360 included); -90 acts as 270 and 450 as
90; every non-multiple of 90 raises ValueError; rotate_rect_generic succeeds
under exactly the same condition. -/
theorem claim_C9_rotation_modulo_normalization :
    (∀ (p : OrthoPoly) (r : ℤ),
      (∃ q, p.rotated_copy r = Except.ok q) ↔
        (r % 360 = 0 ∨ r % 360 = 90 ∨ r % 360 = 180 ∨ r % 360 = 270)) ∧
    (∀ (p : OrthoPoly) (r : ℤ),
      (r % 360 = 0 ∨ r % 360 = 90 ∨ r % 360 = 180 ∨ r % 360 = 270) ↔ 90 ∣ r) ∧
    (∀ p : OrthoPoly, p.rotated_copy (-90) = p.rotated_copy 270) ∧
    (∀ p : OrthoPoly, p.rotated_copy 450 = p.rotated_copy 90) ∧
    (∀ (p : OrthoPoly) (r : ℤ), ¬ (90 ∣ r) →
      ∃ e, p.rotated_copy r = Except.error e) ∧
    (∀ (rc : RectCM) (r : ℤ),
      (∃ q, rotate_rect_generic rc r = Except.ok q) ↔
        (r % 360 = 0 ∨ r % 360 = 90 ∨ r % 360 = 180 ∨ r % 360 = 270)) := by
  refine ⟨rotated_copy_ok_iff, ?_, ?_, ?_, ?_, rotate_rect_generic_ok_iff⟩
  · intro _ r
    constructor
    · intro h
      have hmod : r % 360 % 90 = r % 90 := Int.emod_emod_of_dvd r (by norm_num)
      have : 90 ∣ r % 360 := by rcases h with h | h | h | h <;> rw [h] <;> norm_num
      have h1 : r % 360 % 90 = 0 := Int.emod_eq_zero_of_dvd this
      exact Int.dvd_of_emod_eq_zero (hmod ▸ h1)
    · intro h
      omega
  · intro p
    unfold OrthoPoly.rotated_copy
    norm_num
  · intro p
    unfold OrthoPoly.rotated_copy
    norm_num
  · intro p r hr
    exact ⟨_, rotated_copy_error_of_not_dvd p hr⟩

/-- C9 witness: rotating the unit square by -90 equals rotating it by 270,
applied at a concrete polygon. -/
theorem claim_C9_witness :
    OrthoPoly.rotated_copy ⟨[(0, 0), (1, 0), (1, 1), (0, 1)], []⟩ (-90) =
      OrthoPoly.rotated_copy ⟨[(0, 0), (1, 0), (1, 1), (0, 1)], []⟩ 270 :=
  claim_C9_rotation_modulo_normalization.2.2.1 _

/-- C7 counterexample: translate mutates the polygon in place (the Python
method rebinds self.outer and self.holes and returns None), so after
translate(5, 3) the polygon is NOT left unchanged, refuting the claim that
no operation mutates an existing polygon. -/
theorem claim_C7_counterexample :
    OrthoPoly.translate ⟨[(0, 0), (10, 0), (10, 5), (0, 5)], []⟩ 5 3 ≠
      ⟨[(0, 0), (10, 0), (10, 5), (0, 5)], []⟩ := by
  intro h
  have h1 := congrArg OrthoPoly.outer h
  simp [OrthoPoly.translate] at h1

/-- C7 amended: rotated_copy builds a fresh polygon from copies of the loops
and does not write to the original (rotation by 0 returns a copy equal in
value to the original), but translate mutates the polygon in place: after
the call the loops are the translated loops of the original, and whenever
the offset is nonzero and the outer loop nonempty the polygon's value has
changed. -/
theorem claim_C7_amended_mutation_semantics (p : OrthoPoly) (dx dy : ℚ) :
    (p.translate dx dy).outer = (p.outer.map fun q => (q.1 + dx, q.2 + dy)) ∧
    (p.translate dx dy).holes =
      (p.holes.map fun h => h.map fun q => (q.1 + dx, q.2 + dy)) ∧
    (¬ (dx = 0 ∧ dy = 0) → p.outer ≠ [] → p.translate dx dy ≠ p) ∧
    p.rotated_copy 0 = Except.ok ⟨p.outer, p.holes⟩ := by
  refine ⟨rfl, rfl, ?_, ?_⟩
  · intro hne hout heq
    cases hp : p.outer with
    | nil => exact hout hp
    | cons a as =>
        have h1 := congrArg OrthoPoly.outer heq
        rw [show (p.translate dx dy).outer = p.outer.map fun q => (q.1 + dx, q.2 + dy) from rfl,
          hp] at h1
        simp only [List.map_cons, List.cons.injEq] at h1
        have hfst := congrArg Prod.fst h1.1
        have hsnd := congrArg Prod.snd h1.1
        simp at hfst hsnd
        exact hne ⟨hfst, hsnd⟩
  · unfold OrthoPoly.rotated_copy
    norm_num

/-- C7 amended witness: the amended theorem applied at a concrete square and
a nonzero offset. -/
theorem claim_C7_witness :
    OrthoPoly.translate ⟨[(0, 0), (2, 0), (2, 2), (0, 2)], []⟩ 1 2 ≠
      ⟨[(0, 0), (2, 0), (2, 2), (0, 2)], []⟩ :=
  (claim_C7_amended_mutation_semantics ⟨[(0, 0), (2, 0), (2, 2), (0, 2)], []⟩ 1 2).2.2.1
    (by decide) (by decide)

/-! ### Objectives and layout comparison (frontend/ui/tile_tab.py) -/

/-- The optimization objective; the source passes the strings "width",
"height" and "area", and every branch tests equality with "width" first,
then "height". -/
inductive Objective where
  | width
  | height
  | area
deriving DecidableEq

/-- The two fields of the layout dict that TileTab._compare_layouts reads;
the function returns its argument dict unchanged, so only the compared
fields are modelled. -/
structure LayoutDict where
  total_tiles : ℕ
  area : ℚ
deriving DecidableEq

/-- TileTab._compare_layouts: more total tiles wins; on a tie the smaller
area wins, the height layout being returned when the areas are equal; a
missing side loses; two missing sides give no layout. -/
def compare_layouts : Option LayoutDict → Option LayoutDict → Option LayoutDict
  | none, none => none
  | none, some h => some h
  | some w, none => some w
  | some w, some h =>
      if h.total_tiles < w.total_tiles then some w
      else if w.total_tiles < h.total_tiles then some h
      else if w.area < h.area then some w
      else some h

/-- C2: _compare_layouts prefers strictly more total tiles, tie-breaks on
smaller area, returns the only present layout when exactly one is present,
returns no layout when both are absent, and on the spec's example
layout_width(total_tiles 4, area 100) versus layout_height(total_tiles 6,
area 120) returns the height layout. -/
theorem claim_C2_compare_layouts_selection :
    (compare_layouts none none = none) ∧
    (∀ h, compare_layouts none (some h) = some h) ∧
    (∀ w, compare_layouts (some w) none = some w) ∧
    (∀ w h, h.total_tiles < w.total_tiles → compare_layouts (some w) (some h) = some w) ∧
    (∀ w h, w.total_tiles < h.total_tiles → compare_layouts (some w) (some h) = some h) ∧
    (∀ w h, w.total_tiles = h.total_tiles → w.area < h.area →
      compare_layouts (some w) (some h) = some w) ∧
    (∀ w h, w.total_tiles = h.total_tiles → h.area ≤ w.area →
      compare_layouts (some w) (some h) = some h) ∧
    (compare_layouts (some ⟨4, 100⟩) (some ⟨6, 120⟩) = some ⟨6, 120⟩) := by
  refine ⟨rfl, fun _ => rfl, fun _ => rfl, ?_, ?_, ?_, ?_, ?_⟩
  · intro w h hlt
    simp [compare_layouts, hlt]
  · intro w h hlt
    have h1 : ¬ h.total_tiles < w.total_tiles := by omega
    simp [compare_layouts, h1, hlt]
  · intro w h heq harea
    have h1 : ¬ h.total_tiles < w.total_tiles := by omega
    have h2 : ¬ w.total_tiles < h.total_tiles := by omega
    simp [compare_layouts, h1, h2, harea]
  · intro w h heq harea
    have h1 : ¬ h.total_tiles < w.total_tiles := by omega
    have h2 : ¬ w.total_tiles < h.total_tiles := by omega
    have h3 : ¬ w.area < h.area := not_lt.mpr harea
    simp [compare_layouts, h1, h2, h3]
  · simp [compare_layouts]

/-- C2 witness: on equal tile counts the smaller-area layout is returned,
applied at concrete layouts. -/
theorem claim_C2_witness :
    compare_layouts (some ⟨3, 50⟩) (some ⟨3, 40⟩) = some ⟨3, 40⟩ :=
  claim_C2_compare_layouts_selection.2.2.2.2.2.2.1 ⟨3, 50⟩ ⟨3, 40⟩ rfl (by norm_num)

/-! ### Service layer (backend/service/layout_service.py) -/

/-- Round to the nearest integer, ties to even (the semantics of Python's
built-in round). -/
def roundHalfEvenInt (x : ℚ) : ℤ :=
  let f := ⌊x⌋
  let r := x - f
  if r < 1 / 2 then f
  else if 1 / 2 < r then f + 1
  else if f % 2 = 0 then f else f + 1

/-- round(x, 2) of the service layer: round to two decimal places. -/
def round2 (x : ℚ) : ℚ :=
  (roundHalfEvenInt (x * 100) : ℚ) / 100

/-- layout_service.LayoutRequest; the box parameters are consumed only by
the engine call, which is abstracted as an oracle argument below. -/
structure LayoutRequestE where
  tiles_x : ℤ
  tiles_y : ℤ
  medianil_x : ℚ
  medianil_y : ℚ
  paso_y : ℚ
  paso_x : ℚ
  clearance_cm : ℚ
  sangria_izquierda : ℚ
  sangria_derecha : ℚ
  pinza : ℚ
  contra_pinza : ℚ
  objective : Objective
deriving DecidableEq

/-- The layout_summary dict built on success. -/
structure LayoutSummary where
  tiles_x : ℤ
  tiles_y : ℤ
  planilla : ℤ
  medida_x_cm : ℚ
  medida_y_cm : ℚ
  area_cm2 : ℚ
  objective : Objective
deriving DecidableEq

/-- layout_service.LayoutResponse. -/
structure LayoutResponse where
  success : Bool
  layout : Option LayoutSummary
  message : Option String
deriving DecidableEq

/-- layout_service.optimize_layout.  The construction of the engine and the
call to calculate_global_bbox are the only statements inside the try block
that can raise; they are abstracted by the engineBbox oracle, whose error
arm carries the exception message str(exc) turned into the failure
response by the except handler.  The Python guard `if not bbox` after the
call is unreachable (the engine always returns a truthy 4-tuple) and is
therefore not represented. -/
def optimize_layout (req : LayoutRequestE)
    (engineBbox : Except String (ℚ × ℚ × ℚ × ℚ)) : LayoutResponse :=
  if req.tiles_x ≤ 0 ∨ req.tiles_y ≤ 0 then
    ⟨false, none, some "La cantidad de tiles debe ser mayor a 0 en ambos ejes."⟩
  else
    match engineBbox with
    | Except.error msg => ⟨false, none, some msg⟩
    | Except.ok bbox =>
        let medida_x := bbox.2.2.1 - bbox.1
        let medida_y := bbox.2.2.2 - bbox.2.1
        let medida_x_total := medida_x + req.sangria_izquierda + req.sangria_derecha
        let medida_y_total := medida_y + req.pinza + req.contra_pinza
        ⟨true,
         some ⟨req.tiles_x, req.tiles_y, req.tiles_x * req.tiles_y,
           round2 medida_x_total, round2 medida_y_total,
           round2 (medida_x_total * medida_y_total), req.objective⟩,
         none⟩

/-- C10: optimize_layout always returns a LayoutResponse: non-positive tile
counts yield success=false with a message without consulting the engine
(the response is independent of the engine oracle); an exception from the
computation becomes success=false carrying the exception's message; and on
success the layout reports planilla = tiles_x * tiles_y and the dimensions
are the bounding-box extents plus the four margins, rounded to two
decimals. -/
theorem claim_C10_optimize_layout_error_handling :
    (∀ req ex1 ex2, (req.tiles_x ≤ 0 ∨ req.tiles_y ≤ 0) →
      optimize_layout req ex1 =
        ⟨false, none, some "La cantidad de tiles debe ser mayor a 0 en ambos ejes."⟩ ∧
      optimize_layout req ex1 = optimize_layout req ex2) ∧
    (∀ req msg, ¬ (req.tiles_x ≤ 0 ∨ req.tiles_y ≤ 0) →
      optimize_layout req (Except.error msg) = ⟨false, none, some msg⟩) ∧
    (∀ req bbox, ¬ (req.tiles_x ≤ 0 ∨ req.tiles_y ≤ 0) →
      optimize_layout req (Except.ok bbox) =
        ⟨true,
         some ⟨req.tiles_x, req.tiles_y, req.tiles_x * req.tiles_y,
           round2 (bbox.2.2.1 - bbox.1 + req.sangria_izquierda + req.sangria_derecha),
           round2 (bbox.2.2.2 - bbox.2.1 + req.pinza + req.contra_pinza),
           round2 ((bbox.2.2.1 - bbox.1 + req.sangria_izquierda + req.sangria_derecha) *
             (bbox.2.2.2 - bbox.2.1 + req.pinza + req.contra_pinza)),
           req.objective⟩,
         none⟩) := by
  refine ⟨?_, ?_, ?_⟩
  · intro req ex1 ex2 hneg
    constructor
    · simp [optimize_layout, hneg]
    · simp [optimize_layout, hneg]
  · intro req msg hpos
    simp [optimize_layout, hpos]
  · intro req bbox hpos
    simp [optimize_layout, hpos]

/-- C10 witness: the invalid-tiles branch at a concrete request, applied for
two different engine outcomes. -/
theorem claim_C10_witness :
    optimize_layout ⟨0, 2, 0, 0, 0, 0, 0, 0, 0, 0, 0, Objective.width⟩
        (Except.ok (0, 0, 0, 0)) =
      ⟨false, none, some "La cantidad de tiles debe ser mayor a 0 en ambos ejes."⟩ :=
  ((claim_C10_optimize_layout_error_handling).1
    ⟨0, 2, 0, 0, 0, 0, 0, 0, 0, 0, 0, Objective.width⟩
    (Except.ok (0, 0, 0, 0)) (Except.error "boom") (Or.inl (by norm_num))).1

/-! ### Bed-limit expansion loops (TileTab._calculate_layout_bounds) -/

/-- One minimum-expansion loop of _calculate_layout_bounds: starting from
tile count t, return the first t whose computed dimension reaches the bed
minimum; after each increment the count is checked against the 100 cap and
the loop returns failure (None) when the cap is exceeded.  The loop body
runs at most 100 times, so the structural fuel of 100 is never exhausted
when started at t = 1. -/
def bedExpandMin (w : ℕ → ℚ) (target : ℚ) : ℕ → ℕ → Option ℕ
  | _, 0 => none
  | t, fuel + 1 =>
      if target ≤ w t then some t
      else if 100 < t + 1 then none
      else bedExpandMin w target (t + 1) fuel

/-- One maximum-expansion loop of _calculate_layout_bounds: starting from
the minimal count m, keep incrementing while the dimension at m+1 stays
within the bed maximum; on exceeding the cap the loop silently breaks with
the incremented count. -/
def bedExpandMax (w : ℕ → ℚ) (limit : ℚ) : ℕ → ℕ → ℕ
  | m, 0 => m
  | m, fuel + 1 =>
      if limit < w (m + 1) then m
      else if 100 < m + 1 then m + 1
      else bedExpandMax w limit (m + 1) fuel

/-- TileTab._calculate_layout_bounds, with the engine bbox and the margin
application abstracted into the two dimension functions: anchoTotal tx ty
(respectively altoTotal tx ty) is the margined width (height) of the
tx-by-ty grid.  The first loop scans widths at tiles_y = 1, the second
scans heights at the found tiles_x_min, the third scans widths at
tiles_y = 1 from tiles_x_min, the fourth scans heights at tiles_x_max. -/
def calculate_layout_bounds (anchoTotal altoTotal : ℕ → ℕ → ℚ)
    (x_min_roland x_max_roland y_min_roland y_max_roland : ℚ) :
    Option (ℕ × ℕ × ℕ × ℕ) :=
  match bedExpandMin (fun t => anchoTotal t 1) x_min_roland 1 100 with
  | none => none
  | some tiles_x_min =>
      match bedExpandMin (fun t => altoTotal tiles_x_min t) y_min_roland 1 100 with
      | none => none
      | some tiles_y_min =>
          let tiles_x_max := bedExpandMax (fun t => anchoTotal t 1) x_max_roland tiles_x_min 100
          let tiles_y_max := bedExpandMax (fun t => altoTotal tiles_x_max t) y_max_roland
            tiles_y_min 100
          some (tiles_x_min, tiles_y_min, tiles_x_max, tiles_y_max)

theorem bedExpandMin_some {w : ℕ → ℚ} {target : ℚ} {t fuel r : ℕ}
    (ht : t ≤ 100) (h : bedExpandMin w target t fuel = some r) :
    t ≤ r ∧ r ≤ 100 ∧ target ≤ w r := by
  induction fuel generalizing t with
  | zero => cases h
  | succ fuel ih =>
      rw [bedExpandMin] at h
      by_cases h1 : target ≤ w t
      · rw [if_pos h1] at h
        obtain rfl : t = r := by injection h
        exact ⟨le_refl t, ht, h1⟩
      · rw [if_neg h1] at h
        by_cases h2 : 100 < t + 1
        · rw [if_pos h2] at h
          cases h
        · rw [if_neg h2] at h
          obtain ⟨ha, hb, hc⟩ := ih (by omega) h
          exact ⟨by omega, hb, hc⟩

theorem bedExpandMin_none_iff {w : ℕ → ℚ} {target : ℚ} {t fuel : ℕ}
    (ht : t ≤ 100) (hfuel : 101 ≤ t + fuel) :
    bedExpandMin w target t fuel = none ↔ ∀ s, t ≤ s → s ≤ 100 → w s < target := by
  induction fuel generalizing t with
  | zero => omega
  | succ fuel ih =>
      rw [bedExpandMin]
      by_cases h1 : target ≤ w t
      · rw [if_pos h1]
        constructor
        · intro h
          cases h
        · intro h
          exact absurd (h t (le_refl t) ht) (not_lt.mpr h1)
      · rw [if_neg h1]
        by_cases h2 : 100 < t + 1
        · rw [if_pos h2]
          have ht100 : t = 100 := by omega
          subst ht100
          constructor
          · intro _ s hs1 hs2
            have : s = 100 := by omega
            subst this
            exact lt_of_not_le h1
          · intro _
            rfl
        · rw [if_neg h2]
          rw [ih (by omega) (by omega)]
          constructor
          · intro h s hs1 hs2
            rcases Nat.eq_or_lt_of_le hs1 with rfl | hlt
            · exact lt_of_not_le h1
            · exact h s (by omega) hs2
          · intro h s hs1 hs2
            exact h s (by omega) hs2

theorem bedExpandMax_le {w : ℕ → ℚ} {limit : ℚ} {m fuel : ℕ} (hm : m ≤ 100) :
    bedExpandMax w limit m fuel ≤ 101 := by
  induction fuel generalizing m with
  | zero => rw [bedExpandMax]; omega
  | succ fuel ih =>
      rw [bedExpandMax]
      by_cases h1 : limit < w (m + 1)
      · rw [if_pos h1]; omega
      · rw [if_neg h1]
        by_cases h2 : 100 < m + 1
        · rw [if_pos h2]; omega
        · rw [if_neg h2]
          exact ih (by omega)

/-- C8: every bed-limit expansion loop terminates within the 100-iteration
cap: a successful bounds computation returns minimal counts in [1, 100] and
maximal counts at most 101; and when the cap is hit while expanding tiles_x
(or tiles_y) towards the bed minimum width (height) -- that is, when no
count up to 100 reaches the minimum -- the procedure returns None, a
failure, instead of looping forever or continuing silently. -/
theorem claim_C8_expansion_loops_capped
    (anchoTotal altoTotal : ℕ → ℕ → ℚ)
    (x_min_roland x_max_roland y_min_roland y_max_roland : ℚ) :
    (∀ a b c d,
      calculate_layout_bounds anchoTotal altoTotal
          x_min_roland x_max_roland y_min_roland y_max_roland = some (a, b, c, d) →
      1 ≤ a ∧ a ≤ 100 ∧ 1 ≤ b ∧ b ≤ 100 ∧ c ≤ 101 ∧ d ≤ 101) ∧
    ((∀ t, 1 ≤ t → t ≤ 100 → anchoTotal t 1 < x_min_roland) →
      calculate_layout_bounds anchoTotal altoTotal
        x_min_roland x_max_roland y_min_roland y_max_roland = none) ∧
    (∀ a, bedExpandMin (fun t => anchoTotal t 1) x_min_roland 1 100 = some a →
      (∀ t, 1 ≤ t → t ≤ 100 → altoTotal a t < y_min_roland) →
      calculate_layout_bounds anchoTotal altoTotal
        x_min_roland x_max_roland y_min_roland y_max_roland = none) := by
  refine ⟨?_, ?_, ?_⟩
  · intro a b c d h
    unfold calculate_layout_bounds at h
    cases hx : bedExpandMin (fun t => anchoTotal t 1) x_min_roland 1 100 with
    | none => rw [hx] at h; cases h
    | some txmin =>
        rw [hx] at h
        dsimp only at h
        cases hy : bedExpandMin (fun t => altoTotal txmin t) y_min_roland 1 100 with
        | none => rw [hy] at h; cases h
        | some tymin =>
            rw [hy] at h
            dsimp only at h
            simp only [Option.some.injEq, Prod.mk.injEq] at h
            obtain ⟨rfl, rfl, rfl, rfl⟩ := h
            obtain ⟨hx1, hx2, -⟩ := bedExpandMin_some (by omega) hx
            obtain ⟨hy1, hy2, -⟩ := bedExpandMin_some (by omega) hy
            exact ⟨hx1, hx2, hy1, hy2, bedExpandMax_le hx2, bedExpandMax_le hy2⟩
  · intro hall
    unfold calculate_layout_bounds
    have h : bedExpandMin (fun t => anchoTotal t 1) x_min_roland 1 100 = none :=
      (bedExpandMin_none_iff (by omega) (by omega)).mpr fun s hs1 hs2 => hall s hs1 hs2
    rw [h]
  · intro a ha hall
    unfold calculate_layout_bounds
    have h : bedExpandMin (fun t => altoTotal a t) y_min_roland 1 100 = none :=
      (bedExpandMin_none_iff (by omega) (by omega)).mpr fun s hs1 hs2 => hall s hs1 hs2
    rw [ha]
    dsimp only
    rw [h]

/-- C8 witness: with every width strictly below the bed minimum the bounds
computation fails, applied at concrete dimension functions. -/
theorem claim_C8_witness :
    calculate_layout_bounds (fun _ _ => 0) (fun _ _ => 0) 1 50 1 50 = none :=
  (claim_C8_expansion_loops_capped (fun _ _ => 0) (fun _ _ => 0) 1 50 1 50).2.1
    (fun _ _ _ => by norm_num)

/-! ### Global bounding box of the assembled grid (NestingEngine.calculate_global_bbox) -/

/-- Min over a nonempty list as Python's min does; junk 0 on the empty list,
matching an initial accumulator of +infinity never being used. -/
def listMin (l : List ℚ) : ℚ :=
  match l with
  | [] => 0
  | x :: xs => foldMin x xs

/-- Max over a nonempty list. -/
def listMax (l : List ℚ) : ℚ :=
  match l with
  | [] => 0
  | x :: xs => foldMax x xs

theorem listMin_le_mem {a : ℚ} {l : List ℚ} (h : a ∈ l) : listMin l ≤ a := by
  cases l with
  | nil => cases h
  | cons x xs =>
      rcases List.mem_cons.mp h with rfl | hm
      · exact foldMin_le_init a xs
      · exact foldMin_le_mem x hm

theorem mem_le_listMax {a : ℚ} {l : List ℚ} (h : a ∈ l) : a ≤ listMax l := by
  cases l with
  | nil => cases h
  | cons x xs =>
      rcases List.mem_cons.mp h with rfl | hm
      · exact le_foldMax_init a xs
      · exact mem_le_foldMax x hm

theorem listMin_mem {l : List ℚ} (h : l ≠ []) : listMin l ∈ l := by
  cases l with
  | nil => exact absurd rfl h
  | cons x xs =>
      rcases foldMin_choice x xs with h1 | h1
      · rw [listMin, h1]; exact List.mem_cons_self x xs
      · exact List.mem_cons_of_mem x h1

theorem listMax_mem {l : List ℚ} (h : l ≠ []) : listMax l ∈ l := by
  cases l with
  | nil => exact absurd rfl h
  | cons x xs =>
      rcases foldMax_choice x xs with h1 | h1
      · rw [listMax, h1]; exact List.mem_cons_self x xs
      · exact List.mem_cons_of_mem x h1

theorem listMin_mono {l1 l2 : List ℚ} (h1 : l1 ≠ []) (hsub : ∀ a ∈ l1, a ∈ l2) :
    listMin l2 ≤ listMin l1 :=
  listMin_le_mem (hsub _ (listMin_mem h1))

theorem listMax_mono {l1 l2 : List ℚ} (h1 : l1 ≠ []) (hsub : ∀ a ∈ l1, a ∈ l2) :
    listMax l1 ≤ listMax l2 :=
  mem_le_listMax (hsub _ (listMax_mem h1))

/-- The per-tile offset of calculate_global_bbox, following its if/elif
branching on the column index: column 0 places poly1, column 1 poly2T at
(dx2 + medianil_x, dy2), column 2 poly3T at (dx3 + 2 medianil_x, dy3), and
beyond that odd columns continue the poly2T series and even columns the
poly3T series; every row is shifted down by row * (h1 + medianil_y). -/
def tileOffset (dx2 dy2 dx3 dy3 medianil_x medianil_y h1 : ℚ) (row col : ℕ) : ℚ × ℚ :=
  let row_offset_y : ℚ := (row : ℚ) * (h1 + medianil_y)
  if col = 0 then (0, row_offset_y)
  else if col = 1 then (dx2 + medianil_x, dy2 + row_offset_y)
  else if col = 2 then (dx3 + 2 * medianil_x, dy3 + row_offset_y)
  else if col % 2 = 1 then
    (dx3 * (((col - 1) / 2 : ℕ) : ℚ) + ((col - 1 : ℕ) : ℚ) * medianil_x + dx2 + medianil_x,
     dy3 * (((col - 1) / 2 : ℕ) : ℚ) + dy2 + row_offset_y)
  else
    (dx2 + dx3 * (((col - 2) / 2 : ℕ) : ℚ) + ((col - 1 : ℕ) : ℚ) * medianil_x +
       (dx3 - dx2) + medianil_x,
     dy2 + dy3 * (((col - 2) / 2 : ℕ) : ℚ) + (dy3 - dy2) + row_offset_y)

/-- The motif polygon placed at a given column. -/
def tilePoly (poly1 poly2T poly3T : OrthoPoly) (col : ℕ) : OrthoPoly :=
  if col = 0 then poly1
  else if col = 1 then poly2T
  else if col = 2 then poly3T
  else if col % 2 = 1 then poly2T
  else poly3T

/-- The aabb of the tile at (row, col) shifted by its offset, as accumulated
by the inner loop of calculate_global_bbox. -/
def tileBox (poly1 poly2T poly3T : OrthoPoly) (dx2 dy2 dx3 dy3 mx my : ℚ)
    (row col : ℕ) : ℚ × ℚ × ℚ × ℚ :=
  let h1 := poly1.aabb.2.2.2 - poly1.aabb.2.1
  let off := tileOffset dx2 dy2 dx3 dy3 mx my h1 row col
  let bb := (tilePoly poly1 poly2T poly3T col).aabb
  (bb.1 + off.1, bb.2.1 + off.2, bb.2.2.1 + off.1, bb.2.2.2 + off.2)

/-- The (row, col) pairs visited by the two nested loops. -/
def gridCells (tiles_x tiles_y : ℕ) : List (ℕ × ℕ) :=
  (List.range tiles_y).flatMap fun row => (List.range tiles_x).map fun col => (row, col)

/-- NestingEngine.calculate_global_bbox on a cached motif: min/max of the
shifted per-tile bounding boxes over all grid cells.  Python starts the
accumulators at +-infinity, so an empty grid would return an infinite box;
that case (tiles_x = 0 or tiles_y = 0) is junk here as well. -/
def calculate_global_bbox (poly1 poly2T poly3T : OrthoPoly)
    (dx2 dy2 dx3 dy3 mx my : ℚ) (tiles_x tiles_y : ℕ) : ℚ × ℚ × ℚ × ℚ :=
  let boxes := (gridCells tiles_x tiles_y).map fun rc =>
    tileBox poly1 poly2T poly3T dx2 dy2 dx3 dy3 mx my rc.1 rc.2
  (listMin (boxes.map fun b => b.1), listMin (boxes.map fun b => b.2.1),
   listMax (boxes.map fun b => b.2.2.1), listMax (boxes.map fun b => b.2.2.2))

/-- Area of a returned bounding box, (maxx - minx) * (maxy - miny). -/
def bboxArea (b : ℚ × ℚ × ℚ × ℚ) : ℚ :=
  (b.2.2.1 - b.1) * (b.2.2.2 - b.2.1)

theorem mem_gridCells {x : ℕ × ℕ} {tx ty : ℕ} :
    x ∈ gridCells tx ty ↔ x.1 < ty ∧ x.2 < tx := by
  unfold gridCells
  simp only [List.mem_flatMap, List.mem_map, List.mem_range]
  constructor
  · rintro ⟨r, hr, c, hc, rfl⟩
    exact ⟨hr, hc⟩
  · rintro ⟨h1, h2⟩
    exact ⟨x.1, h1, x.2, h2, Prod.ext rfl rfl⟩

theorem aabb_min_le_max (p : OrthoPoly) (h : p.outer ≠ []) :
    p.aabb.1 ≤ p.aabb.2.2.1 ∧ p.aabb.2.1 ≤ p.aabb.2.2.2 := by
  cases hp : p.outer with
  | nil => exact absurd hp h
  | cons q qs =>
      unfold OrthoPoly.aabb
      rw [hp]
      exact ⟨le_trans (foldMin_le_init q.1 (qs.map Prod.fst))
               (le_foldMax_init q.1 (qs.map Prod.fst)),
             le_trans (foldMin_le_init q.2 (qs.map Prod.snd))
               (le_foldMax_init q.2 (qs.map Prod.snd))⟩

theorem tileBox_min_le_max (poly1 poly2T poly3T : OrthoPoly)
    (dx2 dy2 dx3 dy3 mx my : ℚ) (row col : ℕ)
    (h1 : poly1.outer ≠ []) (h2 : poly2T.outer ≠ []) (h3 : poly3T.outer ≠ []) :
    (tileBox poly1 poly2T poly3T dx2 dy2 dx3 dy3 mx my row col).1 ≤
      (tileBox poly1 poly2T poly3T dx2 dy2 dx3 dy3 mx my row col).2.2.1 ∧
    (tileBox poly1 poly2T poly3T dx2 dy2 dx3 dy3 mx my row col).2.1 ≤
      (tileBox poly1 poly2T poly3T dx2 dy2 dx3 dy3 mx my row col).2.2.2 := by
  have hp : (tilePoly poly1 poly2T poly3T col).outer ≠ [] := by
    unfold tilePoly
    by_cases c0 : col = 0
    · simpa [c0] using h1
    by_cases c1 : col = 1
    · simpa [c0, c1] using h2
    by_cases c2 : col = 2
    · simpa [c0, c1, c2] using h3
    by_cases codd : col % 2 = 1
    · simpa [c0, c1, c2, codd] using h2
    · simpa [c0, c1, c2, codd] using h3
  obtain ⟨ha, hb⟩ := aabb_min_le_max _ hp
  unfold tileBox
  refine ⟨?_, ?_⟩ <;> dsimp only <;> linarith

/-- C4: for a fixed cached motif and fixed gaps, the area of the bounding
box returned by calculate_global_bbox is non-decreasing in tiles_x and in
tiles_y: enlarging either tile count (here simultaneously from (tx, ty) to
(tx2, ty2) with tx <= tx2, ty <= ty2) never shrinks the box. -/
theorem claim_C4_global_bbox_area_monotone
    (poly1 poly2T poly3T : OrthoPoly) (dx2 dy2 dx3 dy3 mx my : ℚ)
    (h1 : poly1.outer ≠ []) (h2 : poly2T.outer ≠ []) (h3 : poly3T.outer ≠ [])
    (hmx : 0 ≤ mx) (hmy : 0 ≤ my)
    (tx ty tx2 ty2 : ℕ) (htx : 0 < tx) (hty : 0 < ty)
    (hx : tx ≤ tx2) (hy : ty ≤ ty2) :
    bboxArea (calculate_global_bbox poly1 poly2T poly3T dx2 dy2 dx3 dy3 mx my tx ty) ≤
      bboxArea (calculate_global_bbox poly1 poly2T poly3T dx2 dy2 dx3 dy3 mx my tx2 ty2) := by
  set f := fun rc : ℕ × ℕ => tileBox poly1 poly2T poly3T dx2 dy2 dx3 dy3 mx my rc.1 rc.2 with hf
  set B1 := (gridCells tx ty).map f with hB1
  set B2 := (gridCells tx2 ty2).map f with hB2
  have hsub : ∀ b ∈ B1, b ∈ B2 := by
    intro b hb
    rw [hB1, List.mem_map] at hb
    obtain ⟨rc, hrc, rfl⟩ := hb
    rw [hB2, List.mem_map]
    obtain ⟨hr, hc⟩ := mem_gridCells.mp hrc
    exact ⟨rc, mem_gridCells.mpr ⟨by omega, by omega⟩, rfl⟩
  have hne1 : B1 ≠ [] := by
    have : f (0, 0) ∈ B1 := by
      rw [hB1, List.mem_map]
      exact ⟨(0, 0), mem_gridCells.mpr ⟨hty, htx⟩, rfl⟩
    intro hnil
    rw [hnil] at this
    cases this
  -- component-wise monotonicity of the four accumulators
  have hcomp : ∀ g : (ℚ × ℚ × ℚ × ℚ) → ℚ,
      (B1.map g ≠ [] ∧ (∀ a ∈ B1.map g, a ∈ B2.map g)) := by
    intro g
    constructor
    · intro hnil
      exact hne1 (List.map_eq_nil_iff.mp hnil)
    · intro a ha
      rw [List.mem_map] at ha
      obtain ⟨b, hb, rfl⟩ := ha
      exact List.mem_map.mpr ⟨b, hsub b hb, rfl⟩
  have hminx : listMin (B2.map fun b => b.1) ≤ listMin (B1.map fun b => b.1) :=
    listMin_mono (hcomp fun b => b.1).1 (hcomp fun b => b.1).2
  have hminy : listMin (B2.map fun b => b.2.1) ≤ listMin (B1.map fun b => b.2.1) :=
    listMin_mono (hcomp fun b => b.2.1).1 (hcomp fun b => b.2.1).2
  have hmaxx : listMax (B1.map fun b => b.2.2.1) ≤ listMax (B2.map fun b => b.2.2.1) :=
    listMax_mono (hcomp fun b => b.2.2.1).1 (hcomp fun b => b.2.2.1).2
  have hmaxy : listMax (B1.map fun b => b.2.2.2) ≤ listMax (B2.map fun b => b.2.2.2) :=
    listMax_mono (hcomp fun b => b.2.2.2).1 (hcomp fun b => b.2.2.2).2
  -- the width and height of the smaller grid are non-negative
  have hbox := tileBox_min_le_max poly1 poly2T poly3T dx2 dy2 dx3 dy3 mx my 0 0 h1 h2 h3
  have hmem : f (0, 0) ∈ B1 := by
    rw [hB1, List.mem_map]
    exact ⟨(0, 0), mem_gridCells.mpr ⟨hty, htx⟩, rfl⟩
  have hw1 : listMin (B1.map fun b => b.1) ≤ listMax (B1.map fun b => b.2.2.1) := by
    calc listMin (B1.map fun b => b.1) ≤ (f (0, 0)).1 :=
          listMin_le_mem (List.mem_map.mpr ⟨_, hmem, rfl⟩)
      _ ≤ (f (0, 0)).2.2.1 := hbox.1
      _ ≤ listMax (B1.map fun b => b.2.2.1) :=
          mem_le_listMax (List.mem_map.mpr ⟨_, hmem, rfl⟩)
  have hh1 : listMin (B1.map fun b => b.2.1) ≤ listMax (B1.map fun b => b.2.2.2) := by
    calc listMin (B1.map fun b => b.2.1) ≤ (f (0, 0)).2.1 :=
          listMin_le_mem (List.mem_map.mpr ⟨_, hmem, rfl⟩)
      _ ≤ (f (0, 0)).2.2.2 := hbox.2
      _ ≤ listMax (B1.map fun b => b.2.2.2) :=
          mem_le_listMax (List.mem_map.mpr ⟨_, hmem, rfl⟩)
  show bboxArea (listMin (B1.map fun b => b.1), listMin (B1.map fun b => b.2.1),
        listMax (B1.map fun b => b.2.2.1), listMax (B1.map fun b => b.2.2.2)) ≤
      bboxArea (listMin (B2.map fun b => b.1), listMin (B2.map fun b => b.2.1),
        listMax (B2.map fun b => b.2.2.1), listMax (B2.map fun b => b.2.2.2))
  unfold bboxArea
  have hwmono : listMax (B1.map fun b => b.2.2.1) - listMin (B1.map fun b => b.1) ≤
      listMax (B2.map fun b => b.2.2.1) - listMin (B2.map fun b => b.1) := by
    linarith
  have hhmono : listMax (B1.map fun b => b.2.2.2) - listMin (B1.map fun b => b.2.1) ≤
      listMax (B2.map fun b => b.2.2.2) - listMin (B2.map fun b => b.2.1) := by
    linarith
  exact mul_le_mul hwmono hhmono (by linarith) (by linarith)

/-- C4 witness: the unit-square motif with zero offsets, growing the grid
from 1x1 to 2x2. -/
theorem claim_C4_witness :
    bboxArea (calculate_global_bbox
        ⟨[(0, 0), (1, 0), (1, 1), (0, 1)], []⟩ ⟨[(0, 0), (1, 0), (1, 1), (0, 1)], []⟩
        ⟨[(0, 0), (1, 0), (1, 1), (0, 1)], []⟩ 0 0 0 0 0 0 1 1) ≤
      bboxArea (calculate_global_bbox
        ⟨[(0, 0), (1, 0), (1, 1), (0, 1)], []⟩ ⟨[(0, 0), (1, 0), (1, 1), (0, 1)], []⟩
        ⟨[(0, 0), (1, 0), (1, 1), (0, 1)], []⟩ 0 0 0 0 0 0 2 2) :=
  claim_C4_global_bbox_area_monotone
    ⟨[(0, 0), (1, 0), (1, 1), (0, 1)], []⟩ ⟨[(0, 0), (1, 0), (1, 1), (0, 1)], []⟩
    ⟨[(0, 0), (1, 0), (1, 1), (0, 1)], []⟩ 0 0 0 0 0 0
    (by decide) (by decide) (by decide) (by norm_num) (by norm_num)
    1 1 2 2 (by norm_num) (by norm_num) (by norm_num) (by norm_num)

/-! ### Production layout decision (TileTab._calculate_production_metrics,
_find_optimal_layout, _find_intermediate_layout) -/

/-- The layout class chosen by _find_optimal_layout (tipo_planilla). -/
inductive PlanillaTipo where
  | minima
  | maxima
  | intermedia
deriving DecidableEq

/-- TileTab._calculate_production_metrics: planos = tiles_x * tiles_y per
grid, and tiros = max(1, ceil(volumen / planos)) when planos > 0, else 0.
Python computes math.ceil on true division, the exact rational ceiling. -/
structure ProductionMetrics where
  tiles_x_min : ℕ
  tiles_y_min : ℕ
  tiles_x_max : ℕ
  tiles_y_max : ℕ
  planos_min : ℕ
  planos_max : ℕ
  tiros_con_min : ℤ
  tiros_con_max : ℤ
  volumen : ℕ
  tiros_minimos : ℕ
deriving DecidableEq

def calculate_production_metrics (txmin tymin txmax tymax volumen tirosMin : ℕ) :
    ProductionMetrics :=
  { tiles_x_min := txmin, tiles_y_min := tymin,
    tiles_x_max := txmax, tiles_y_max := tymax,
    planos_min := txmin * tymin, planos_max := txmax * tymax,
    tiros_con_min :=
      if 0 < txmin * tymin then
        max 1 ⌈(volumen : ℚ) / ((txmin * tymin : ℕ) : ℚ)⌉
      else 0,
    tiros_con_max :=
      if 0 < txmax * tymax then
        max 1 ⌈(volumen : ℚ) / ((txmax * tymax : ℕ) : ℚ)⌉
      else 0,
    volumen := volumen, tiros_minimos := tirosMin }

/-- TileTab._ensure_layout_within_limits as a predicate: the dimensions
(margins included) stay inside the bed limits up to the 1e-6 tolerance;
outside it the Python method raises ValueError. -/
def within_limits (medida_x medida_y x_min x_max y_min y_max : ℚ) : Prop :=
  x_min - 1 / 1000000 ≤ medida_x ∧ medida_x ≤ x_max + 1 / 1000000 ∧
  y_min - 1 / 1000000 ≤ medida_y ∧ medida_y ≤ y_max + 1 / 1000000

instance within_limits_dec (a b c d e f : ℚ) : Decidable (within_limits a b c d e f) := by
  unfold within_limits
  infer_instance

/-- The factores_posibles list of _find_intermediate_layout: every (tx, ty)
in the bound rectangle whose product matches the required tile count and
whose margined dimensions pass the limits check, together with its total
area.  anchoTotal/altoTotal abstract calculate_global_bbox plus
_apply_margins_to_dims. -/
def intermediate_factores (anchoTotal altoTotal : ℕ → ℕ → ℚ)
    (x_min x_max y_min y_max : ℚ)
    (txmin tymin txmax tymax : ℕ) (need : ℤ) : List (ℕ × ℕ × ℚ) :=
  (List.range' txmin (txmax + 1 - txmin)).flatMap fun tx =>
    (List.range' tymin (tymax + 1 - tymin)).filterMap fun ty =>
      if ((tx * ty : ℕ) : ℤ) = need then
        if within_limits (anchoTotal tx ty) (altoTotal tx ty) x_min x_max y_min y_max then
          some (tx, ty, anchoTotal tx ty * altoTotal tx ty)
        else none
      else none

/-- TileTab._find_intermediate_layout: among the feasible factor pairs pick
the one of smallest total area (Python's min keeps the first minimum); when
none is feasible fall back to the maximal grid. -/
def find_intermediate_layout (anchoTotal altoTotal : ℕ → ℕ → ℚ)
    (x_min x_max y_min y_max : ℚ)
    (txmin tymin txmax tymax : ℕ) (need : ℤ) : ℕ × ℕ :=
  match intermediate_factores anchoTotal altoTotal x_min x_max y_min y_max
      txmin tymin txmax tymax need with
  | [] => (txmax, tymax)
  | f :: fs =>
      let best := fs.foldl (fun b x => if x.2.2 < b.2.2 then x else b) f
      (best.1, best.2.1)

/-- TileTab._find_optimal_layout: minimal grid when its shot count already
meets the minimum, else maximal grid when its shot count still reaches the
minimum, else the intermediate search on ceil(volumen / tiros_minimos). -/
def find_optimal_layout (anchoTotal altoTotal : ℕ → ℕ → ℚ)
    (x_min x_max y_min y_max : ℚ) (m : ProductionMetrics) :
    (ℕ × ℕ) × PlanillaTipo :=
  if m.tiros_con_min ≤ (m.tiros_minimos : ℤ) then
    ((m.tiles_x_min, m.tiles_y_min), PlanillaTipo.minima)
  else if (m.tiros_minimos : ℤ) ≤ m.tiros_con_max then
    ((m.tiles_x_max, m.tiles_y_max), PlanillaTipo.maxima)
  else
    (find_intermediate_layout anchoTotal altoTotal x_min x_max y_min y_max
      m.tiles_x_min m.tiles_y_min m.tiles_x_max m.tiles_y_max
      ⌈(m.volumen : ℚ) / (m.tiros_minimos : ℚ)⌉,
     PlanillaTipo.intermedia)

theorem mem_intermediate_factores (anchoTotal altoTotal : ℕ → ℕ → ℚ)
    (x_min x_max y_min y_max : ℚ) (txmin tymin txmax tymax : ℕ) (need : ℤ)
    (g : ℕ × ℕ × ℚ) :
    g ∈ intermediate_factores anchoTotal altoTotal x_min x_max y_min y_max
        txmin tymin txmax tymax need ↔
      txmin ≤ g.1 ∧ g.1 ≤ txmax ∧ tymin ≤ g.2.1 ∧ g.2.1 ≤ tymax ∧
      ((g.1 * g.2.1 : ℕ) : ℤ) = need ∧
      within_limits (anchoTotal g.1 g.2.1) (altoTotal g.1 g.2.1) x_min x_max y_min y_max ∧
      g.2.2 = anchoTotal g.1 g.2.1 * altoTotal g.1 g.2.1 := by
  unfold intermediate_factores
  rw [List.mem_flatMap]
  constructor
  · rintro ⟨tx, htx, hg⟩
    rw [List.mem_filterMap] at hg
    obtain ⟨ty, hty, hf⟩ := hg
    rw [List.mem_range'_1] at htx
    rw [List.mem_range'_1] at hty
    split_ifs at hf with hc1 hc2
    · injection hf with hf
      subst hf
      dsimp only
      exact ⟨by omega, by omega, by omega, by omega, hc1, hc2, rfl⟩
    all_goals cases hf
  · rintro ⟨h1, h2, h3, h4, h5, h6, h7⟩
    refine ⟨g.1, ?_, ?_⟩
    · rw [List.mem_range'_1]
      omega
    · rw [List.mem_filterMap]
      refine ⟨g.2.1, ?_, ?_⟩
      · rw [List.mem_range'_1]
        omega
      · rw [if_pos h5, if_pos h6, ← h7]

theorem foldl_first_min_spec (f : ℕ × ℕ × ℚ) (fs : List (ℕ × ℕ × ℚ)) :
    (fs.foldl (fun b x => if x.2.2 < b.2.2 then x else b) f ∈ f :: fs) ∧
    (∀ x ∈ f :: fs,
      (fs.foldl (fun b x => if x.2.2 < b.2.2 then x else b) f).2.2 ≤ x.2.2) := by
  induction fs generalizing f with
  | nil =>
      refine ⟨List.mem_cons_self f [], ?_⟩
      intro x hx
      rcases List.mem_cons.mp hx with rfl | h
      · exact le_refl _
      · cases h
  | cons a fs ih =>
      rw [List.foldl_cons]
      by_cases h : a.2.2 < f.2.2
      · rw [if_pos h]
        obtain ⟨ih1, ih2⟩ := ih a
        constructor
        · rcases List.mem_cons.mp ih1 with h1 | h1
          · rw [h1]
            exact List.mem_cons_of_mem f (List.mem_cons_self a fs)
          · exact List.mem_cons_of_mem f (List.mem_cons_of_mem a h1)
        · intro x hx
          rcases List.mem_cons.mp hx with rfl | hx1
          · exact le_trans (ih2 a (List.mem_cons_self a fs)) (le_of_lt h)
          · exact ih2 x hx1
      · rw [if_neg h]
        obtain ⟨ih1, ih2⟩ := ih f
        constructor
        · rcases List.mem_cons.mp ih1 with h1 | h1
          · rw [h1]
            exact List.mem_cons_self f (a :: fs)
          · exact List.mem_cons_of_mem f (List.mem_cons_of_mem a h1)
        · intro x hx
          rcases List.mem_cons.mp hx with rfl | hx1
          · exact ih2 x (List.mem_cons_self x fs)
          · rcases List.mem_cons.mp hx1 with rfl | hx2
            · exact le_trans (ih2 f (List.mem_cons_self f fs)) (not_lt.mp h)
            · exact ih2 x (List.mem_cons_of_mem f hx2)

/-- C1: with positive bed-limit bounds and positive production volume, the
shot counts are max(1, ceil(volumen / planos)); the optimizer chooses the
minimal grid when shots_at_min <= minimum shots, else the maximal grid when
shots_at_max >= minimum shots, and otherwise runs the intermediate search
on required_total = ceil(volumen / minimum shots), returning a feasible
factor pair of smallest margined area when one exists and the maximal grid
otherwise. -/
theorem claim_C1_layout_optimizer_decision
    (anchoTotal altoTotal : ℕ → ℕ → ℚ) (x_min x_max y_min y_max : ℚ)
    (txmin tymin txmax tymax volumen tirosMin : ℕ)
    (hx1 : 0 < txmin) (hy1 : 0 < tymin) (hx2 : txmin ≤ txmax) (hy2 : tymin ≤ tymax)
    (hv : 0 < volumen) :
    (calculate_production_metrics txmin tymin txmax tymax volumen tirosMin).tiros_con_min =
        max 1 ⌈(volumen : ℚ) / ((txmin * tymin : ℕ) : ℚ)⌉ ∧
    (calculate_production_metrics txmin tymin txmax tymax volumen tirosMin).tiros_con_max =
        max 1 ⌈(volumen : ℚ) / ((txmax * tymax : ℕ) : ℚ)⌉ ∧
    ((calculate_production_metrics txmin tymin txmax tymax volumen tirosMin).tiros_con_min ≤
        (tirosMin : ℤ) →
      find_optimal_layout anchoTotal altoTotal x_min x_max y_min y_max
          (calculate_production_metrics txmin tymin txmax tymax volumen tirosMin) =
        ((txmin, tymin), PlanillaTipo.minima)) ∧
    ((tirosMin : ℤ) <
        (calculate_production_metrics txmin tymin txmax tymax volumen tirosMin).tiros_con_min →
      (tirosMin : ℤ) ≤
        (calculate_production_metrics txmin tymin txmax tymax volumen tirosMin).tiros_con_max →
      find_optimal_layout anchoTotal altoTotal x_min x_max y_min y_max
          (calculate_production_metrics txmin tymin txmax tymax volumen tirosMin) =
        ((txmax, tymax), PlanillaTipo.maxima)) ∧
    ((tirosMin : ℤ) <
        (calculate_production_metrics txmin tymin txmax tymax volumen tirosMin).tiros_con_min →
      (calculate_production_metrics txmin tymin txmax tymax volumen tirosMin).tiros_con_max <
        (tirosMin : ℤ) →
      (find_optimal_layout anchoTotal altoTotal x_min x_max y_min y_max
          (calculate_production_metrics txmin tymin txmax tymax volumen tirosMin)).2 =
        PlanillaTipo.intermedia ∧
      (∀ g : ℕ × ℕ,
        (txmin ≤ g.1 ∧ g.1 ≤ txmax ∧ tymin ≤ g.2 ∧ g.2 ≤ tymax ∧
          ((g.1 * g.2 : ℕ) : ℤ) = ⌈(volumen : ℚ) / (tirosMin : ℚ)⌉ ∧
          within_limits (anchoTotal g.1 g.2) (altoTotal g.1 g.2) x_min x_max y_min y_max) →
        (let r := (find_optimal_layout anchoTotal altoTotal x_min x_max y_min y_max
            (calculate_production_metrics txmin tymin txmax tymax volumen tirosMin)).1
         (txmin ≤ r.1 ∧ r.1 ≤ txmax ∧ tymin ≤ r.2 ∧ r.2 ≤ tymax ∧
          ((r.1 * r.2 : ℕ) : ℤ) = ⌈(volumen : ℚ) / (tirosMin : ℚ)⌉ ∧
          within_limits (anchoTotal r.1 r.2) (altoTotal r.1 r.2) x_min x_max y_min y_max) ∧
         anchoTotal r.1 r.2 * altoTotal r.1 r.2 ≤ anchoTotal g.1 g.2 * altoTotal g.1 g.2)) ∧
      ((¬ ∃ g : ℕ × ℕ,
          txmin ≤ g.1 ∧ g.1 ≤ txmax ∧ tymin ≤ g.2 ∧ g.2 ≤ tymax ∧
          ((g.1 * g.2 : ℕ) : ℤ) = ⌈(volumen : ℚ) / (tirosMin : ℚ)⌉ ∧
          within_limits (anchoTotal g.1 g.2) (altoTotal g.1 g.2) x_min x_max y_min y_max) →
        (find_optimal_layout anchoTotal altoTotal x_min x_max y_min y_max
            (calculate_production_metrics txmin tymin txmax tymax volumen tirosMin)).1 =
          (txmax, tymax))) := by
  have hpmin : 0 < txmin * tymin := Nat.mul_pos hx1 hy1
  have hpmax : 0 < txmax * tymax := Nat.mul_pos (by omega) (by omega)
  set m := calculate_production_metrics txmin tymin txmax tymax volumen tirosMin with hm
  have hc1 : m.tiros_con_min = max 1 ⌈(volumen : ℚ) / ((txmin * tymin : ℕ) : ℚ)⌉ := by
    rw [hm]
    unfold calculate_production_metrics
    exact if_pos hpmin
  have hc2 : m.tiros_con_max = max 1 ⌈(volumen : ℚ) / ((txmax * tymax : ℕ) : ℚ)⌉ := by
    rw [hm]
    unfold calculate_production_metrics
    exact if_pos hpmax
  have hmfields : m.tiles_x_min = txmin ∧ m.tiles_y_min = tymin ∧
      m.tiles_x_max = txmax ∧ m.tiles_y_max = tymax ∧
      m.volumen = volumen ∧ m.tiros_minimos = tirosMin := by
    rw [hm]
    exact ⟨rfl, rfl, rfl, rfl, rfl, rfl⟩
  obtain ⟨hf1, hf2, hf3, hf4, hf5, hf6⟩ := hmfields
  refine ⟨hc1, hc2, ?_, ?_, ?_⟩
  · intro h
    unfold find_optimal_layout
    rw [if_pos (by rw [hf6]; exact h), hf1, hf2]
  · intro h1 h2
    unfold find_optimal_layout
    rw [if_neg (by rw [hf6]; omega), if_pos (by rw [hf6]; exact h2), hf3, hf4]
  · intro h1 h2
    have hiff : find_optimal_layout anchoTotal altoTotal x_min x_max y_min y_max m =
        (find_intermediate_layout anchoTotal altoTotal x_min x_max y_min y_max
          txmin tymin txmax tymax ⌈(volumen : ℚ) / (tirosMin : ℚ)⌉,
         PlanillaTipo.intermedia) := by
      unfold find_optimal_layout
      rw [if_neg (by rw [hf6]; omega), if_neg (by rw [hf6]; omega), hf1, hf2, hf3, hf4,
        hf5, hf6]
    rw [hiff]
    refine ⟨rfl, ?_, ?_⟩
    · intro g hg
      unfold find_intermediate_layout
      cases hfac : intermediate_factores anchoTotal altoTotal x_min x_max y_min y_max
          txmin tymin txmax tymax ⌈(volumen : ℚ) / (tirosMin : ℚ)⌉ with
      | nil =>
          exfalso
          have hmem := (mem_intermediate_factores anchoTotal altoTotal x_min x_max y_min
            y_max txmin tymin txmax tymax ⌈(volumen : ℚ) / (tirosMin : ℚ)⌉
            (g.1, g.2, anchoTotal g.1 g.2 * altoTotal g.1 g.2)).mpr
            ⟨hg.1, hg.2.1, hg.2.2.1, hg.2.2.2.1, hg.2.2.2.2.1, hg.2.2.2.2.2, rfl⟩
          rw [hfac] at hmem
          cases hmem
      | cons f fs =>
          obtain ⟨hbmem, hbmin⟩ := foldl_first_min_spec f fs
          rw [← hfac] at hbmem
          set best := fs.foldl (fun b x => if x.2.2 < b.2.2 then x else b) f with hbest
          have hbchar := (mem_intermediate_factores anchoTotal altoTotal x_min x_max y_min
            y_max txmin tymin txmax tymax ⌈(volumen : ℚ) / (tirosMin : ℚ)⌉ best).mp hbmem
          have hgmem : (g.1, g.2, anchoTotal g.1 g.2 * altoTotal g.1 g.2) ∈ f :: fs := by
            rw [← hfac]
            exact (mem_intermediate_factores anchoTotal altoTotal x_min x_max y_min
              y_max txmin tymin txmax tymax ⌈(volumen : ℚ) / (tirosMin : ℚ)⌉ _).mpr
              ⟨hg.1, hg.2.1, hg.2.2.1, hg.2.2.2.1, hg.2.2.2.2.1, hg.2.2.2.2.2, rfl⟩
          refine ⟨⟨hbchar.1, hbchar.2.1, hbchar.2.2.1, hbchar.2.2.2.1, hbchar.2.2.2.2.1,
            hbchar.2.2.2.2.2.1⟩, ?_⟩
          have := hbmin _ hgmem
          calc anchoTotal best.1 best.2.1 * altoTotal best.1 best.2.1
              = best.2.2 := (hbchar.2.2.2.2.2.2).symm
            _ ≤ anchoTotal g.1 g.2 * altoTotal g.1 g.2 := this
    · intro hno
      unfold find_intermediate_layout
      cases hfac : intermediate_factores anchoTotal altoTotal x_min x_max y_min y_max
          txmin tymin txmax tymax ⌈(volumen : ℚ) / (tirosMin : ℚ)⌉ with
      | nil => rfl
      | cons f fs =>
          exfalso
          apply hno
          have hfmem : f ∈ intermediate_factores anchoTotal altoTotal x_min x_max y_min
              y_max txmin tymin txmax tymax ⌈(volumen : ℚ) / (tirosMin : ℚ)⌉ := by
            rw [hfac]
            exact List.mem_cons_self f fs
          have hfchar := (mem_intermediate_factores anchoTotal altoTotal x_min x_max y_min
            y_max txmin tymin txmax tymax ⌈(volumen : ℚ) / (tirosMin : ℚ)⌉ f).mp hfmem
          exact ⟨(f.1, f.2.1), hfchar.1, hfchar.2.1, hfchar.2.2.1, hfchar.2.2.2.1,
            hfchar.2.2.2.2.1, hfchar.2.2.2.2.2.1⟩

/-- C1 witness: volume 1, minimum shots 2, bounds 1..3 in both axes; the
shot count at the minimal grid is 1 <= 2, so the minimal grid is chosen. -/
theorem claim_C1_witness :
    find_optimal_layout (fun tx _ => (tx : ℚ)) (fun _ ty => (ty : ℚ)) 0 100 0 100
        (calculate_production_metrics 1 1 3 3 1 2) =
      ((1, 1), PlanillaTipo.minima) :=
  (claim_C1_layout_optimizer_decision (fun tx _ => (tx : ℚ)) (fun _ ty => (ty : ℚ))
      0 100 0 100 1 1 3 3 1 2 (by norm_num) (by norm_num) (by norm_num) (by norm_num)
      (by norm_num)).2.2.1
    (by norm_num [calculate_production_metrics])

/-! ### Nesting engine cache path (backend/nesting/engine.py) -/

/-- The geometry parameters read by NestingEngine._generate_cache_key from
self.params (backend/models/parameters.PlanoParams). -/
structure PlanoParamsE where
  L : ℚ
  A : ℚ
  h : ℚ
  cIzq : ℚ
  cDer : ℚ
  Tapas : List ℚ
  CSup : List ℚ
  Bases : List ℚ
  CInf : List ℚ
deriving DecidableEq

/-- The cache-key tuple of _generate_cache_key: every geometry parameter of
the net plus the search parameters and the objective. -/
structure CacheKey where
  L : ℚ
  A : ℚ
  h : ℚ
  cIzq : ℚ
  cDer : ℚ
  tapas : List ℚ
  csup : List ℚ
  bases : List ℚ
  cinf : List ℚ
  paso_y : ℚ
  paso_x : ℚ
  clearance_cm : ℚ
  objective : Objective
deriving DecidableEq

/-- NestingEngine._generate_cache_key. -/
def generate_cache_key (p : PlanoParamsE) (paso_y paso_x clearance_cm : ℚ)
    (objective : Objective) : CacheKey :=
  ⟨p.L, p.A, p.h, p.cIzq, p.cDer, p.Tapas, p.CSup, p.Bases, p.CInf,
   paso_y, paso_x, clearance_cm, objective⟩

/-- The pattern_data dict stored by _store_nesting_result, as a typed
payload: the three motif polygons and rect lists, the second- and
third-tile offsets, the two rotations, and the search metadata.  Python
stores copies of the polygons and rect tuples; in this value-level
embedding a copy is the same value. -/
structure PatternData where
  poly1 : OrthoPoly
  rects1 : List (String × RectCM)
  poly2T : OrthoPoly
  rects2T : List (String × RectCM)
  poly3T : OrthoPoly
  rects3T : List (String × RectCM)
  dx2 : ℚ
  dy2 : ℚ
  dx3 : ℚ
  dy3 : ℚ
  rot1 : ℤ
  rot2 : ℤ
  paso_y : ℚ
  paso_x : ℚ
  clearance_cm : ℚ
  objective : Objective
deriving DecidableEq

/-- Modelled from the spec: backend/nesting/cache.py is not among the
sources (only its callers in engine.py and its tests are).  Spec section
4.4: the cache maintains one most-recent PatternMotif slot, store(value,
key) replaces the slot, and isValid(key) is value equality against the
stored key.  The auxiliary bounded LRU store is not consulted by the
engine paths verified here and is not modelled. -/
structure NestingCache where
  pattern_data : Option PatternData
  cache_key : Option CacheKey
deriving DecidableEq

/-- Modelled from the spec: store replaces the slot with the new value and
key. -/
def NestingCache.store (_c : NestingCache) (v : PatternData) (k : CacheKey) : NestingCache :=
  ⟨some v, some k⟩

/-- Modelled from the spec: is_valid is value equality of the queried key
with the stored key. -/
def NestingCache.is_valid (c : NestingCache) (k : CacheKey) : Prop :=
  c.cache_key = some k

instance (c : NestingCache) (k : CacheKey) : Decidable (c.is_valid k) := by
  unfold NestingCache.is_valid
  infer_instance

/-- The mutable fields of NestingEngine: the box parameters and the
per-objective cache slots with their last stored keys. -/
structure EngineState where
  params : PlanoParamsE
  nesting_cache_width : NestingCache
  nesting_cache_height : NestingCache
  last_cache_key_width : Option CacheKey
  last_cache_key_height : Option CacheKey
deriving DecidableEq

/-- NestingEngine._render_from_cache: select the slot by objective (the
"width" slot for width, the height slot otherwise), fail on an empty slot,
regenerate the key from the stored metadata and the current params, and
return the stored pattern when the slot key equals it.  The Python check
that the metadata keys are present in the dict is always true for the
typed payload. -/
def render_from_cache (st : EngineState) (objective : Objective) : Option PatternData :=
  let cache := if objective = Objective.width then st.nesting_cache_width
    else st.nesting_cache_height
  match cache.pattern_data with
  | none => none
  | some pd =>
      let current_key :=
        generate_cache_key st.params pd.paso_y pd.paso_x pd.clearance_cm pd.objective
      if cache.is_valid current_key then some pd else none

/-- NestingEngine._store_nesting_result: build the pattern payload, generate
the key from the current params and arguments, and replace the slot of the
given objective, recording the key as last stored. -/
def store_nesting_result (st : EngineState) (paso_y paso_x clearance_cm : ℚ)
    (objective : Objective) (pd : PatternData) : EngineState :=
  let cache_key := generate_cache_key st.params paso_y paso_x clearance_cm objective
  if objective = Objective.width then
    { st with nesting_cache_width := st.nesting_cache_width.store pd cache_key,
              last_cache_key_width := some cache_key }
  else
    { st with nesting_cache_height := st.nesting_cache_height.store pd cache_key,
              last_cache_key_height := some cache_key }

/-- The outcome of the two-orientation placement search of
calculate_optimal_nesting (the global_best tuple).  The search itself lives
in backend/nesting/algorithms.py, outside the sources; it is abstracted as
an oracle argument, which is exactly what the claim needs: a cache hit must
not consult it. -/
structure SearchOutcome where
  rot1 : ℤ
  poly1 : OrthoPoly
  rects1 : List (String × RectCM)
  dx2 : ℚ
  dy2 : ℚ
  rot2 : ℤ
  rects2T : List (String × RectCM)
  poly2T : OrthoPoly
  dx3 : ℚ
  dy3 : ℚ
  rects3T : List (String × RectCM)
  poly3T : OrthoPoly
  gwidth : ℚ
  gheight : ℚ
  garea : ℚ
deriving DecidableEq

/-- NestingEngine.calculate_optimal_nesting: unless forced, serve from the
cache; otherwise run the placement search (the oracle), store a successful
result and return it, or return none on failure.  The third component
counts how many times the placement search ran (0 on a cache hit, 1
otherwise); medianil_x/medianil_y are carried through as metadata only. -/
def calculate_optimal_nesting (st : EngineState)
    (paso_y paso_x clearance_cm medianil_x medianil_y : ℚ)
    (objective : Objective) (force_recalculate : Bool)
    (search : Option SearchOutcome) : Option PatternData × EngineState × ℕ :=
  let fullCalc : Option PatternData × EngineState × ℕ :=
    match search with
    | none => (none, st, 1)
    | some r =>
        let pd : PatternData :=
          ⟨r.poly1, r.rects1, r.poly2T, r.rects2T, r.poly3T, r.rects3T,
           r.dx2, r.dy2, r.dx3, r.dy3, r.rot1, r.rot2,
           paso_y, paso_x, clearance_cm, objective⟩
        (some pd, store_nesting_result st paso_y paso_x clearance_cm objective pd, 1)
  if force_recalculate then fullCalc
  else
    match render_from_cache st objective with
    | some pd => (some pd, st, 0)
    | none => fullCalc

theorem render_from_cache_after_store (st : EngineState)
    (paso_y paso_x clearance_cm : ℚ) (objective : Objective) (pd : PatternData)
    (hpy : pd.paso_y = paso_y) (hpx : pd.paso_x = paso_x)
    (hcl : pd.clearance_cm = clearance_cm) (hobj : pd.objective = objective) :
    render_from_cache (store_nesting_result st paso_y paso_x clearance_cm objective pd)
      objective = some pd := by
  cases objective with
  | width =>
      simp [render_from_cache, store_nesting_result, NestingCache.store,
        NestingCache.is_valid, hpy, hpx, hcl, hobj]
  | height =>
      simp [render_from_cache, store_nesting_result, NestingCache.store,
        NestingCache.is_valid, hpy, hpx, hcl, hobj]
  | area =>
      simp [render_from_cache, store_nesting_result, NestingCache.store,
        NestingCache.is_valid, hpy, hpx, hcl, hobj]

/-- C5: if calculate_optimal_nesting is called with force_recalculate=false
and succeeds (returning and, on a fresh computation, storing a motif), then
an immediately repeated call with identical arguments is served from the
cache: it returns the same PatternData (same rotations and offsets), leaves
the engine state untouched, and performs zero placement-search runs --
whatever the second call's search oracle would have produced. -/
theorem claim_C5_second_call_is_cache_hit (st : EngineState)
    (paso_y paso_x clearance_cm medianil_x medianil_y : ℚ) (objective : Objective)
    (search1 search2 : Option SearchOutcome)
    (pd : PatternData) (st1 : EngineState) (n1 : ℕ)
    (h : calculate_optimal_nesting st paso_y paso_x clearance_cm medianil_x medianil_y
        objective false search1 = (some pd, st1, n1)) :
    calculate_optimal_nesting st1 paso_y paso_x clearance_cm medianil_x medianil_y
      objective false search2 = (some pd, st1, 0) := by
  unfold calculate_optimal_nesting at h
  cases hr : render_from_cache st objective with
  | some pd0 =>
      rw [hr] at h
      simp only [Bool.false_eq_true, if_false, Prod.mk.injEq, Option.some.injEq] at h
      obtain ⟨rfl, rfl, -⟩ := h
      unfold calculate_optimal_nesting
      rw [hr]
      simp
  | none =>
      rw [hr] at h
      cases search1 with
      | none =>
          simp only [Bool.false_eq_true, if_false, Prod.mk.injEq] at h
          cases h.1
      | some r =>
          simp only [Bool.false_eq_true, if_false, Prod.mk.injEq, Option.some.injEq] at h
          obtain ⟨rfl, rfl, -⟩ := h
          unfold calculate_optimal_nesting
          rw [render_from_cache_after_store st paso_y paso_x clearance_cm objective _
            rfl rfl rfl rfl]
          simp

/-- C5 witness: a concrete first call (empty cache, a trivial search
outcome) followed by the repeated call, which is served from the cache. -/
theorem claim_C5_witness :
    calculate_optimal_nesting
        (store_nesting_result
          ⟨⟨1, 2, 3, 0, 0, [], [], [], []⟩, ⟨none, none⟩, ⟨none, none⟩, none, none⟩
          1 1 0 Objective.width
          ⟨⟨[(0, 0)], []⟩, [], ⟨[(0, 0)], []⟩, [], ⟨[(0, 0)], []⟩, [],
           0, 0, 0, 0, 90, 0, 1, 1, 0, Objective.width⟩)
        1 1 0 0 0 Objective.width false none =
      (some ⟨⟨[(0, 0)], []⟩, [], ⟨[(0, 0)], []⟩, [], ⟨[(0, 0)], []⟩, [],
         0, 0, 0, 0, 90, 0, 1, 1, 0, Objective.width⟩,
       store_nesting_result
         ⟨⟨1, 2, 3, 0, 0, [], [], [], []⟩, ⟨none, none⟩, ⟨none, none⟩, none, none⟩
         1 1 0 Objective.width
         ⟨⟨[(0, 0)], []⟩, [], ⟨[(0, 0)], []⟩, [], ⟨[(0, 0)], []⟩, [],
          0, 0, 0, 0, 90, 0, 1, 1, 0, Objective.width⟩,
       0) :=
  claim_C5_second_call_is_cache_hit
    ⟨⟨1, 2, 3, 0, 0, [], [], [], []⟩, ⟨none, none⟩, ⟨none, none⟩, none, none⟩
    1 1 0 0 0 Objective.width
    (some ⟨90, ⟨[(0, 0)], []⟩, [], 0, 0, 0, [], ⟨[(0, 0)], []⟩, 0, 0, [],
      ⟨[(0, 0)], []⟩, 1, 1, 1⟩)
    none _ _ _ rfl

end BoxNesting
